import Mathlib

/-!
Shallow embedding of the metadata-resolution-and-caching pipeline of
`make-xnview-slideshow` (src/main.rs), and proofs of the specification
claims about it.

Modelling conventions:
* a path is its raw byte string (`Bytes := List Nat`), as hashed by
  `cache_path` in the source;
* `NaiveDateTime` values are modelled as `Int` (any linearly ordered
  carrier suffices for the min-of-candidates policy);
* `SystemTime` is modelled as `Int` nanoseconds relative to the UNIX
  epoch (negative = before the epoch, which is exactly when
  `duration_since(UNIX_EPOCH)` fails in the source);
* fallible operations (`?` on `Result` in Rust) become `Except Error`;
* the ambient world an invocation of `ImageInfo::from_path` observes
  (filesystem metadata, EXIF source, image decoder, cache directory,
  cache file contents, local-timezone conversion) is a `World` record;
  each of its fields is the outcome the corresponding foreign call
  would return for the path being resolved.
-/

set_option autoImplicit false

deriving instance DecidableEq for Except

namespace MakeXnviewSlideshow

/-- Raw byte string of a filesystem path (`path.as_os_str().as_encoded_bytes()`). -/
abbrev Bytes := List Nat

/-- The error enum of src/main.rs, plus two constructors for foreign error
types that `anyhow::Result` carries through `?` in the same functions:
`DurationSinceError` for `std::time::SystemTimeError` (pre-epoch
timestamps), and `OtherError` for wrapped io/image/exif-source errors. -/
inductive Error where
  | ExifValueError (path : Bytes) (dbg : String)
  | ExifTimeError (path : Bytes) (tag : String) (value : String)
  | NoCreationDateError (path : Bytes)
  | SystemTimeError (s : String)
  | CacheDirError
  | DurationSinceError
  | OtherError (s : String)
deriving DecidableEq, Repr

/-- The `ImageInfo` struct: the unit of work and the cache payload. -/
structure ImageInfo where
  path : Bytes
  width : Nat
  height : Nat
  creation_date_time : Int
deriving DecidableEq, Repr

/-- EXIF tags distinguished by the `match tag` in `ImageInfo::from_path`;
all other known tags fall into the `Other` arm. -/
inductive ExifTag where
  | DateTimeOriginal
  | CreateDate
  | ModifyDate
  | Other (s : String)
deriving DecidableEq, Repr

/-- `tag.to_string()` for the error message of `ExifTimeError`. -/
def ExifTag.toStr : ExifTag → String
  | .DateTimeOriginal => "DateTimeOriginal"
  | .CreateDate => "CreateDate"
  | .ModifyDate => "ModifyDate"
  | .Other s => s

/-- Whether the tag is one of the three date-like tags matched in
`ImageInfo::from_path`. -/
def ExifTag.isDateTag : ExifTag → Bool
  | .DateTimeOriginal => true
  | .CreateDate => true
  | .ModifyDate => true
  | .Other _ => false

/-- An EXIF value as observed through `nom_exif`: `as_time()` (already
composed with `naive_local()`) and `to_string()`. -/
structure ExifValue where
  asTime : Option Int
  str : String
deriving DecidableEq, Repr

/-- One entry yielded by the `ExifIter`: `get_value()`, `tag()`, and the
`format!("\x7b:?\x7d", exif)` debug rendering used in `ExifValueError`. -/
structure ExifEntry where
  value : Option ExifValue
  tag : Option ExifTag
  dbg : String
deriving DecidableEq, Repr

/-- The `AsyncMediaSource` for a file: `has_exif()` and the outcome of
`media_parser.parse(ms)` (an error models a corrupt EXIF structure). -/
structure FileExif where
  hasExif : Bool
  parse : Except String (List ExifEntry)
deriving DecidableEq, Repr

/-- `tokio::fs::metadata` result: the `created()` and `modified()` system
times, each itself fallible. A system time is `Int` nanoseconds since
the UNIX epoch. -/
structure FsMeta where
  created : Except Error Int
  modified : Except Error Int
deriving DecidableEq, Repr

/-- The world one resolution observes: every foreign call's outcome. -/
structure World where
  /-- `md5::compute` of the path bytes, hex-encoded (`cache_path`). -/
  hash : Bytes → String
  /-- Outcome of `cache_parent_dir()`: `CacheDirError` when `cache_dir()`
  is unavailable, an io error when `create_dir_all` fails. -/
  cacheParent : Except Error Unit
  /-- On-disk cache: contents of the cache file with the given name, or
  `none` when it does not exist or cannot be read. -/
  cache : String → Option (List Int)
  /-- Outcome of `tokio::fs::write` for the cache entry. -/
  writeResult : Except Error Unit
  /-- Outcome of `tokio::fs::metadata(path)`. -/
  fsMetadata : Except Error FsMeta
  /-- Outcome of `AsyncMediaSource::file_path(path)`. -/
  exifSource : Except Error FileExif
  /-- `Local.timestamp_opt(secs, nanos).earliest()` followed by
  `naive_local()`: the local-timezone conversion, partial because the
  instant may fall outside the representable local range. -/
  localize : Nat → Nat → Option Int
  /-- Outcome of `read_image_size(path)`: the decoded `(width, height)`. -/
  decode : Except Error (Nat × Nat)

/-- Serialization of an `ImageInfo` cache entry (`serde_json::to_string`),
modelled as a flat integer encoding. -/
def encodeInfo (i : ImageInfo) : List Int :=
  Int.ofNat i.width :: Int.ofNat i.height :: i.creation_date_time ::
    Int.ofNat i.path.length :: i.path.map Int.ofNat

/-- Deserialization of a cache entry (`serde_json::from_str`); `none` on a
malformed entry. -/
def decodeInfo : List Int → Option ImageInfo
  | w :: h :: c :: n :: rest =>
    if 0 ≤ w ∧ 0 ≤ h ∧ 0 ≤ n ∧ rest.length = n.toNat ∧ rest.all (fun x => decide (0 ≤ x)) then
      some ⟨rest.map Int.toNat, w.toNat, h.toNat, c⟩
    else
      none
  | _ => none

/-- `cache_path(path)`: the cache file name derived from the md5 hex hash
of the path bytes, after `cache_parent_dir()` succeeded. -/
def cache_path (w : World) (path : Bytes) : Except Error String :=
  match w.cacheParent with
  | .error e => .error e
  | .ok _ => .ok (w.hash path ++ ".json")

/-- `cached_image_info(path)`: look the path up in the cache; any failure
(no cache dir, missing file, unreadable file, malformed entry) is `none`. -/
def cached_image_info (w : World) (path : Bytes) : Option ImageInfo :=
  match cache_path w path with
  | .error _ => none
  | .ok cp =>
    match w.cache cp with
    | none => none
    | some content => decodeInfo content

/-- `cache_image_info(image_info)`: serialize and write the cache entry;
returns the cache file name it wrote to. -/
def cache_image_info (w : World) (info : ImageInfo) : Except Error String :=
  match cache_path w info.path with
  | .error e => .error e
  | .ok cp =>
    match w.writeResult with
    | .error e => .error e
    | .ok _ => .ok cp

/-- `get_local_naive_date_time_from_system_time`: fails on a pre-epoch
time (`duration_since(UNIX_EPOCH)?`), then applies the local-timezone
conversion to `(as_secs(), subsec_nanos())`, failing with
`SystemTimeError` when no local representation exists. -/
def get_local_naive_date_time_from_system_time
    (localize : Nat → Nat → Option Int) (t : Int) : Except Error Int :=
  if t < 0 then
    .error .DurationSinceError
  else
    match localize ((t / 1000000000).toNat) ((t % 1000000000).toNat) with
    | some dt => .ok dt
    | none => .error (.SystemTimeError (toString ((t / 1000000000).toNat)))

/-- The `for exif in iter` loop: for each entry, `get_value()` must yield
a value (`ExifValueError` otherwise); entries with an unknown tag are
skipped; for the three date-like tags, `value.as_time()` must parse
(`ExifTimeError` otherwise) and the time is collected in iteration
order. -/
def collectExif (path : Bytes) : List ExifEntry → Except Error (List Int)
  | [] => .ok []
  | e :: rest =>
    match e.value with
    | none => .error (.ExifValueError path e.dbg)
    | some v =>
      match e.tag with
      | none => collectExif path rest
      | some t =>
        if t.isDateTag then
          match v.asTime with
          | none => .error (.ExifTimeError path t.toStr v.str)
          | some dt =>
            match collectExif path rest with
            | .error err => .error err
            | .ok ds => .ok (dt :: ds)
        else
          collectExif path rest

/-- The EXIF block of `ImageInfo::from_path`: nothing when the file has no
EXIF; a whole-file parse failure is logged and ignored (no candidates);
otherwise the collected date-tag times. -/
def exifCandidates (path : Bytes) (fe : FileExif) : Except Error (List Int) :=
  if fe.hasExif then
    match fe.parse with
    | .error _ => .ok []
    | .ok entries => collectExif path entries
  else
    .ok []

/-- The candidate-gathering phase of `ImageInfo::from_path` on a cache
miss: local-converted filesystem creation time, then local-converted
modification time, then the EXIF date-tag times, in source push order. -/
def candidates (w : World) (path : Bytes) : Except Error (List Int) :=
  match w.fsMetadata with
  | .error e => .error e
  | .ok md =>
    match md.created with
    | .error e => .error e
    | .ok ct =>
      match get_local_naive_date_time_from_system_time w.localize ct with
      | .error e => .error e
      | .ok c1 =>
        match md.modified with
        | .error e => .error e
        | .ok mt =>
          match get_local_naive_date_time_from_system_time w.localize mt with
          | .error e => .error e
          | .ok c2 =>
            match w.exifSource with
            | .error e => .error e
            | .ok fe =>
              match exifCandidates path fe with
              | .error e => .error e
              | .ok ex => .ok (c1 :: c2 :: ex)

/-- Outcome of one `ImageInfo::from_path` call: the returned
`Result<ImageInfo>` and the cache entry it wrote, if any
(file name and serialized contents). -/
structure ResolveOutcome where
  result : Except Error ImageInfo
  cacheWritten : Option (String × List Int)
deriving DecidableEq, Repr

namespace ImageInfo

/-- `ImageInfo::from_path`: return the cached record on a hit; otherwise
gather candidates, fail with `NoCreationDateError` on an empty candidate
list, take the minimum, decode the image size, write the cache entry and
return the assembled record. -/
def from_path (w : World) (path : Bytes) : ResolveOutcome :=
  match cached_image_info w path with
  | some info => ⟨.ok info, none⟩
  | none =>
    match candidates w path with
    | .error e => ⟨.error e, none⟩
    | .ok cands =>
      match cands.min? with
      | none => ⟨.error (.NoCreationDateError path), none⟩
      | some m =>
        match w.decode with
        | .error e => ⟨.error e, none⟩
        | .ok (width, height) =>
          let info : ImageInfo := ⟨path, width, height, m⟩
          match cache_image_info w info with
          | .error e => ⟨.error e, none⟩
          | .ok cp => ⟨.ok info, some (cp, encodeInfo info)⟩

end ImageInfo

/-- The world the directory walker observes: `tokio::fs::read_dir` listings,
`entry.file_type().is_dir()` outcomes, and the two stateless external
collaborators `junk_file::is_junk` and the `mime_guess` image test. -/
structure WalkWorld where
  readDir : Bytes → Except Error (List Bytes)
  fileTypeIsDir : Bytes → Except Error Bool
  isJunk : Bytes → Bool
  mimeImage : Bytes → Bool

/-- The inner `while let Some(entry)` loop of `image_path_stream` over one
directory listing: junk entries are skipped, directories are pushed (in
iteration order, second component), image-typed files are yielded, other
files are skipped. A `file_type()` error yields the error and aborts the
whole stream (second component `none`). -/
def process_dir_entries (w : WalkWorld) :
    List Bytes → List (Except Error Bytes) × Option (List Bytes)
  | [] => ([], some [])
  | p :: rest =>
    if w.isJunk p then
      process_dir_entries w rest
    else
      match w.fileTypeIsDir p with
      | .error e => ([.error e], none)
      | .ok true =>
        ((process_dir_entries w rest).1,
         (process_dir_entries w rest).2.map (fun ds => p :: ds))
      | .ok false =>
        if w.mimeImage p then
          (.ok p :: (process_dir_entries w rest).1, (process_dir_entries w rest).2)
        else
          process_dir_entries w rest

/-- The outer `while let Some(dir) = dir_stack.pop()` loop of
`image_path_stream`. The stack is kept top-first (the source pops from the
back of a `Vec`); directories discovered in one listing end up with the
last-discovered one on top, as `Vec::push`/`Vec::pop` produce. `fuel`
bounds the number of directories read, so the model is total even on a
cyclic filesystem; every run on a finite acyclic tree is reproduced by a
large enough fuel. -/
def image_path_stream_go (w : WalkWorld) : Nat → List Bytes → List (Except Error Bytes)
  | 0, _ => []
  | _ + 1, [] => []
  | fuel + 1, d :: stack =>
    match w.readDir d with
    | .error e => [.error e]
    | .ok entries =>
      match process_dir_entries w entries with
      | (ys, none) => ys
      | (ys, some pushed) => ys ++ image_path_stream_go w fuel (pushed.reverse ++ stack)

/-- `image_path_stream(dirs)`: the sequence of items the stream yields.
The initial `dir_stack` is the configured directory list, popped from the
back, hence reversed in the top-first representation. -/
def image_path_stream (w : WalkWorld) (fuel : Nat) (dirs : List Bytes) :
    List (Except Error Bytes) :=
  image_path_stream_go w fuel dirs.reverse

/-! ## Concrete worlds used to exercise the theorems -/

/-- A world whose cache already holds an entry for path `[7, 8]`. -/
def hitWorld : World :=
  { hash := fun _ => "ab", cacheParent := .ok (),
    cache := fun k => if k = "ab.json" then some (encodeInfo ⟨[7, 8], 4, 3, 11⟩) else none,
    writeResult := .ok (), fsMetadata := .ok ⟨.ok 0, .ok 0⟩,
    exifSource := .ok ⟨false, .error ""⟩, localize := fun _ _ => some 0,
    decode := .ok (9, 9) }

/-- `hitWorld` after the underlying file changed: every non-cache
observation now differs (and even fails), only the cache is the same. -/
def changedFileWorld : World :=
  { hitWorld with
    fsMetadata := .error (.OtherError "file changed"),
    exifSource := .error (.OtherError "file changed"),
    localize := fun _ _ => none,
    decode := .error (.OtherError "file changed"),
    writeResult := .error (.OtherError "file changed") }


/-- A world in which a fresh cache write succeeds; everything else fails. -/
def roundtripWorld : World :=
  { hash := fun _ => "ab", cacheParent := .ok (), cache := fun _ => none,
    writeResult := .ok (), fsMetadata := .error .CacheDirError,
    exifSource := .error .CacheDirError, localize := fun _ _ => none,
    decode := .error .CacheDirError }

/-- A world in which `tokio::fs::metadata` fails. -/
def statFailWorld : World :=
  { hash := fun _ => "ab", cacheParent := .ok (), cache := fun _ => none,
    writeResult := .ok (), fsMetadata := .error (.OtherError "stat failed"),
    exifSource := .error .CacheDirError, localize := fun _ _ => none,
    decode := .error .CacheDirError }


/-- A cache-miss world carrying EXIF dates 2 and 9 among its entries, with
filesystem creation time 5 s and modification time 3 s after the epoch. -/
def exifWorld : World :=
  { hash := fun _ => "ab", cacheParent := .ok (), cache := fun _ => none,
    writeResult := .ok (),
    fsMetadata := .ok ⟨.ok 5000000000, .ok 3000000000⟩,
    exifSource := .ok ⟨true, .ok
      [⟨some ⟨some 2, "v1"⟩, some .DateTimeOriginal, "d1"⟩,
       ⟨some ⟨none, "v2"⟩, some (.Other "Make"), "d2"⟩,
       ⟨some ⟨some 9, "v3"⟩, some .CreateDate, "d3"⟩]⟩,
    localize := fun s _ => some (Int.ofNat s),
    decode := .ok (4, 3) }

/-- A world whose filesystem creation time lies before the UNIX epoch. -/
def preEpochWorld : World :=
  { hash := fun _ => "ab", cacheParent := .ok (), cache := fun _ => none,
    writeResult := .ok (),
    fsMetadata := .ok ⟨.ok (-5000000000), .ok 3000000000⟩,
    exifSource := .ok ⟨false, .error ""⟩,
    localize := fun s _ => some (Int.ofNat s),
    decode := .ok (4, 3) }


/-- A cache-miss world with a corrupt EXIF structure, readable and
convertible filesystem times (5 s and 3 s), and a failing image decode. -/
def corruptExifWorld : World :=
  { hash := fun _ => "ab", cacheParent := .ok (), cache := fun _ => none,
    writeResult := .ok (),
    fsMetadata := .ok ⟨.ok 5000000000, .ok 3000000000⟩,
    exifSource := .ok ⟨true, .error "corrupt exif"⟩,
    localize := fun s _ => some (Int.ofNat s),
    decode := .error (.OtherError "decode failed") }

/-- `corruptExifWorld` with a working image decode. -/
def corruptExifOkWorld : World :=
  { corruptExifWorld with decode := .ok (4, 3) }

/-- A cache-miss world whose single EXIF entry has no extractable value. -/
def exifValueFailWorld : World :=
  { hash := fun _ => "ab", cacheParent := .ok (), cache := fun _ => none,
    writeResult := .ok (),
    fsMetadata := .ok ⟨.ok 5000000000, .ok 3000000000⟩,
    exifSource := .ok ⟨true, .ok [⟨none, some (.Other "Make"), "entry0"⟩]⟩,
    localize := fun s _ => some (Int.ofNat s),
    decode := .ok (4, 3) }


/-- A world whose cache holds a well-formed entry with width 0 — nothing
in the source prevents or rejects it. -/
def zeroWidthCacheWorld : World :=
  { hash := fun _ => "ab", cacheParent := .ok (),
    cache := fun k => if k = "ab.json" then some (encodeInfo ⟨[7], 0, 5, 11⟩) else none,
    writeResult := .ok (), fsMetadata := .error .CacheDirError,
    exifSource := .error .CacheDirError, localize := fun _ _ => none,
    decode := .error .CacheDirError }

/-- A plain cache-miss world where every step succeeds and the decoder
reports 4 by 3. -/
def freshOkWorld : World :=
  { hash := fun _ => "ab", cacheParent := .ok (), cache := fun _ => none,
    writeResult := .ok (), fsMetadata := .ok ⟨.ok 5000000000, .ok 3000000000⟩,
    exifSource := .ok ⟨false, .error ""⟩, localize := fun s _ => some (Int.ofNat s),
    decode := .ok (4, 3) }


/-- A concrete walker world: root `[0]` lists an image file `[1]`, a
subdirectory `[2]` (containing image file `[5]`), a junk entry `[3]`, and
a non-image file `[4]`. -/
def walkWorld : WalkWorld :=
  { readDir := fun d =>
      if d = [0] then .ok [[1], [2], [3], [4]]
      else if d = [2] then .ok [[5]]
      else .error (.OtherError "unreadable"),
    fileTypeIsDir := fun q => .ok (decide (q = [2])),
    isJunk := fun q => decide (q = [3]),
    mimeImage := fun q => decide (q ≠ [4]) }

/-! ## Helper lemmas -/

/-- Serialization round trip: a cache entry written by `cache_image_info`
deserializes to the record it was built from. -/
theorem decodeInfo_encodeInfo (i : ImageInfo) : decodeInfo (encodeInfo i) = some i := by
  cases i with
  | mk path width height creation =>
    simp [encodeInfo, decodeInfo, List.all_eq_true, List.map_map, Function.comp_def]

/-- A successful `cache_path` names the hash-derived cache file and
requires the cache parent directory. -/
theorem cache_path_ok (w : World) (path : Bytes) (cp : String)
    (h : cache_path w path = .ok cp) :
    cp = w.hash path ++ ".json" ∧ ∃ u, w.cacheParent = .ok u := by
  unfold cache_path at h
  split at h
  · exact Except.noConfusion h
  · next u hu =>
    injection h with h
    exact ⟨h.symm, u, hu⟩

/-- A successful `cache_image_info` wrote under the hash-derived file name
and had a usable cache parent directory. -/
theorem cache_image_info_ok (w : World) (info : ImageInfo) (cp : String)
    (h : cache_image_info w info = .ok cp) :
    cp = w.hash info.path ++ ".json" ∧ ∃ u, w.cacheParent = .ok u := by
  unfold cache_image_info at h
  split at h
  · exact Except.noConfusion h
  · next cp2 hcp2 =>
    split at h
    · exact Except.noConfusion h
    · injection h with h
      exact h ▸ cache_path_ok w info.path cp2 hcp2

/-- With a usable cache parent directory, `cached_image_info` is the cache
lookup at the hash-derived file name. -/
theorem cached_image_info_parent_ok (w : World) (path : Bytes) (u : Unit)
    (hp : w.cacheParent = .ok u) :
    cached_image_info w path =
      match w.cache (w.hash path ++ ".json") with
      | none => none
      | some content => decodeInfo content := by
  unfold cached_image_info cache_path
  rw [hp]

/-- A cache hit means some cache file existed and deserialized to the
returned record. -/
theorem cached_image_info_some (w : World) (path : Bytes) (info : ImageInfo)
    (h : cached_image_info w path = some info) :
    ∃ content, w.cache (w.hash path ++ ".json") = some content ∧
      decodeInfo content = some info := by
  unfold cached_image_info at h
  split at h
  · exact Option.noConfusion h
  · next cp hcp =>
    obtain ⟨hk, _, _⟩ := cache_path_ok w path cp hcp
    subst hk
    split at h
    · exact Option.noConfusion h
    · next content hcontent => exact ⟨content, hcontent, h⟩

/-- Full case analysis of `ImageInfo.from_path`: exactly one of the source
branches applies, and the outcome is the corresponding record. -/
theorem from_path_spec (w : World) (path : Bytes) :
    (∃ info, cached_image_info w path = some info ∧
      ImageInfo.from_path w path = ⟨.ok info, none⟩) ∨
    (cached_image_info w path = none ∧
      ((∃ e, candidates w path = .error e ∧
         ImageInfo.from_path w path = ⟨.error e, none⟩) ∨
       (∃ cands, candidates w path = .ok cands ∧
         ((cands.min? = none ∧
            ImageInfo.from_path w path =
              ⟨.error (.NoCreationDateError path), none⟩) ∨
          (∃ m, cands.min? = some m ∧
            ((∃ e, w.decode = .error e ∧
               ImageInfo.from_path w path = ⟨.error e, none⟩) ∨
             (∃ wd ht, w.decode = .ok (wd, ht) ∧
               ((∃ e, cache_image_info w ⟨path, wd, ht, m⟩ = .error e ∧
                  ImageInfo.from_path w path = ⟨.error e, none⟩) ∨
                (∃ cp, cache_image_info w ⟨path, wd, ht, m⟩ = .ok cp ∧
                  ImageInfo.from_path w path =
                    ⟨.ok ⟨path, wd, ht, m⟩,
                     some (cp, encodeInfo ⟨path, wd, ht, m⟩)⟩))))))))) := by
  cases h1 : cached_image_info w path with
  | some info =>
    exact .inl ⟨info, rfl, by simp only [ImageInfo.from_path, h1]⟩
  | none =>
    refine .inr ⟨rfl, ?_⟩
    cases h2 : candidates w path with
    | error e =>
      exact .inl ⟨e, rfl, by simp only [ImageInfo.from_path, h1, h2]⟩
    | ok cands =>
      refine .inr ⟨cands, rfl, ?_⟩
      cases h3 : cands.min? with
      | none =>
        exact .inl ⟨rfl, by simp only [ImageInfo.from_path, h1, h2, h3]⟩
      | some m =>
        refine .inr ⟨m, rfl, ?_⟩
        cases h4 : w.decode with
        | error e =>
          exact .inl ⟨e, rfl, by simp only [ImageInfo.from_path, h1, h2, h3, h4]⟩
        | ok wh =>
          obtain ⟨wd, ht⟩ := wh
          refine .inr ⟨wd, ht, rfl, ?_⟩
          cases h5 : cache_image_info w ⟨path, wd, ht, m⟩ with
          | error e =>
            exact .inl ⟨e, rfl, by
              simp only [ImageInfo.from_path, h1, h2, h3, h4, h5]⟩
          | ok cp =>
            exact .inr ⟨cp, rfl, by
              simp only [ImageInfo.from_path, h1, h2, h3, h4, h5]⟩


/-- On a cache miss, a failed candidate gathering is the whole outcome. -/
theorem from_path_of_candidates_error (w : World) (path : Bytes) (e : Error)
    (hmiss : cached_image_info w path = none)
    (hc : candidates w path = .error e) :
    ImageInfo.from_path w path = ⟨.error e, none⟩ := by
  simp only [ImageInfo.from_path, hmiss, hc]

/-- On a cache miss where every step succeeds, the outcome is the fresh
record together with its cache write. -/
theorem from_path_fresh_ok (w : World) (path : Bytes) (cands : List Int)
    (m : Int) (wd ht : Nat) (cp : String)
    (hmiss : cached_image_info w path = none)
    (hc : candidates w path = .ok cands)
    (hm : cands.min? = some m)
    (hd : w.decode = .ok (wd, ht))
    (hw : cache_image_info w ⟨path, wd, ht, m⟩ = .ok cp) :
    ImageInfo.from_path w path =
      ⟨.ok ⟨path, wd, ht, m⟩, some (cp, encodeInfo ⟨path, wd, ht, m⟩)⟩ := by
  simp only [ImageInfo.from_path, hmiss, hc, hm, hd, hw]

/-- When every gathering step succeeds, the candidate list is the two
local-converted filesystem times followed by the EXIF date-tag times. -/
theorem candidates_ok (w : World) (path : Bytes) (md : FsMeta) (ct c1 mt c2 : Int)
    (fe : FileExif) (ex : List Int)
    (h1 : w.fsMetadata = .ok md) (h2 : md.created = .ok ct)
    (h3 : get_local_naive_date_time_from_system_time w.localize ct = .ok c1)
    (h4 : md.modified = .ok mt)
    (h5 : get_local_naive_date_time_from_system_time w.localize mt = .ok c2)
    (h6 : w.exifSource = .ok fe) (h7 : exifCandidates path fe = .ok ex) :
    candidates w path = .ok (c1 :: c2 :: ex) := by
  simp only [candidates, h1, h2, h3, h4, h5, h6, h7]


/-- The EXIF collection loop over a split list: a successfully collected
prefix contributes its times in front of whatever the tail produces. -/
theorem collectExif_append (path : Bytes) (pre rest : List ExifEntry) (l : List Int)
    (h : collectExif path pre = .ok l) :
    collectExif path (pre ++ rest) = (collectExif path rest).map (fun ds => l ++ ds) := by
  induction pre generalizing l with
  | nil =>
    unfold collectExif at h
    injection h with h
    subst h
    cases hr : collectExif path rest <;> simp [hr, Except.map]
  | cons e pre ih =>
    simp only [List.cons_append]
    simp only [collectExif] at h ⊢
    cases hv : e.value with
    | none =>
      rw [hv] at h
      exact Except.noConfusion h
    | some v =>
      simp only [hv] at h ⊢
      cases htag : e.tag with
      | none =>
        simp only [htag] at h ⊢
        exact ih l h
      | some t =>
        simp only [htag] at h ⊢
        cases hdt : t.isDateTag with
        | false =>
          simp [hdt] at h ⊢
          exact ih l h
        | true =>
          simp only [hdt, if_true] at h ⊢
          cases has : v.asTime with
          | none =>
            simp only [has] at h
            exact Except.noConfusion h
          | some dt =>
            simp only [has] at h ⊢
            cases hcp : collectExif path pre with
            | error e2 =>
              rw [hcp] at h
              exact Except.noConfusion h
            | ok ds =>
              rw [hcp] at h
              injection h with h
              subst h
              rw [ih ds hcp]
              cases hr : collectExif path rest <;> simp [hr, Except.map]


/-- Every `Ok` item the inner directory loop yields is a non-junk
non-directory entry with an image MIME guess. -/
theorem process_dir_entries_ok_mem (w : WalkWorld) (es : List Bytes) (p : Bytes)
    (h : .ok p ∈ (process_dir_entries w es).1) :
    w.isJunk p = false ∧ w.fileTypeIsDir p = .ok false ∧ w.mimeImage p = true := by
  induction es with
  | nil => simp [process_dir_entries] at h
  | cons q rest ih =>
    simp only [process_dir_entries] at h
    split at h
    · exact ih h
    · next hj =>
      split at h
      · simp at h
      · exact ih h
      · next heq =>
        split at h
        · next hm =>
          simp only [List.mem_cons] at h
          rcases h with h | h
          · injection h with h
            subst h
            exact ⟨Bool.eq_false_iff.mpr hj, heq, hm⟩
          · exact ih h
        · exact ih h

/-- Every `Ok` item the outer stack loop yields is a non-junk
non-directory entry with an image MIME guess, for any fuel and stack. -/
theorem image_path_stream_go_ok_mem (w : WalkWorld) :
    ∀ (fuel : Nat) (stack : List Bytes) (p : Bytes),
      .ok p ∈ image_path_stream_go w fuel stack →
      w.isJunk p = false ∧ w.fileTypeIsDir p = .ok false ∧ w.mimeImage p = true := by
  intro fuel
  induction fuel with
  | zero =>
    intro stack p h
    simp [image_path_stream_go] at h
  | succ n ih =>
    intro stack p h
    cases stack with
    | nil => simp [image_path_stream_go] at h
    | cons d rest =>
      simp only [image_path_stream_go] at h
      split at h
      · simp at h
      · split at h
        · next ys heq2 =>
          exact process_dir_entries_ok_mem w _ p (by rw [heq2]; exact h)
        · next ys pushed heq2 =>
          rcases List.mem_append.mp h with h | h
          · exact process_dir_entries_ok_mem w _ p (by rw [heq2]; exact h)
          · exact ih _ p h

/-! ## Claim theorems -/



/-- Claim C7: every path yielded successfully by `image_path_stream` is a
non-directory entry, not classified as junk, whose guessed MIME type has
top-level category image; entries failing either test are never
yielded. -/
theorem image_paths_filtered (w : WalkWorld) (fuel : Nat) (dirs : List Bytes)
    (p : Bytes) (h : .ok p ∈ image_path_stream w fuel dirs) :
    w.isJunk p = false ∧ w.fileTypeIsDir p = .ok false ∧ w.mimeImage p = true :=
  image_path_stream_go_ok_mem w fuel dirs.reverse p h

/-- Witness for `image_paths_filtered`: the nested image file `[5]` is
yielded from the concrete tree and satisfies all three tests. -/
theorem image_paths_filtered_witness :
    .ok [5] ∈ image_path_stream walkWorld 3 [[0]] ∧
    (walkWorld.isJunk [5] = false ∧ walkWorld.fileTypeIsDir [5] = .ok false ∧
      walkWorld.mimeImage [5] = true) :=
  ⟨by decide, image_paths_filtered walkWorld 3 [[0]] [5] (by decide)⟩

/-- Claim C1: on a cache miss whose resolution succeeds, the resolved
creation time is the minimum (earliest) of all gathered candidates: the
local-converted filesystem creation time `c1`, the local-converted
modification time `c2`, and every EXIF value found under the date-like
tags (`ex`). -/
theorem earliest_candidate_policy (w : World) (path : Bytes) (md : FsMeta)
    (ct c1 mt c2 : Int) (fe : FileExif) (ex : List Int) (info : ImageInfo)
    (hmiss : cached_image_info w path = none)
    (h1 : w.fsMetadata = .ok md) (h2 : md.created = .ok ct)
    (h3 : get_local_naive_date_time_from_system_time w.localize ct = .ok c1)
    (h4 : md.modified = .ok mt)
    (h5 : get_local_naive_date_time_from_system_time w.localize mt = .ok c2)
    (h6 : w.exifSource = .ok fe) (h7 : exifCandidates path fe = .ok ex)
    (hok : (ImageInfo.from_path w path).result = .ok info) :
    info.creation_date_time ∈ c1 :: c2 :: ex ∧
      ∀ x ∈ c1 :: c2 :: ex, info.creation_date_time ≤ x := by
  have hcand := candidates_ok w path md ct c1 mt c2 fe ex h1 h2 h3 h4 h5 h6 h7
  rcases from_path_spec w path with ⟨i, hhit, heq⟩ | ⟨hmiss2, hrest⟩
  · rw [hhit] at hmiss; exact Option.noConfusion hmiss
  rcases hrest with ⟨e, hc, heq⟩ | ⟨cands, hc, hrest⟩
  · rw [hcand] at hc; exact Except.noConfusion hc
  rw [hcand] at hc
  injection hc with hc
  subst hc
  rcases hrest with ⟨hm, heq⟩ | ⟨m, hm, hrest⟩
  · simp [List.min?] at hm
  rcases hrest with ⟨e, hd, heq⟩ | ⟨wd, ht, hd, hrest⟩
  · rw [heq] at hok; exact Except.noConfusion hok
  rcases hrest with ⟨e, hw, heq⟩ | ⟨cp, hw, heq⟩
  · rw [heq] at hok; exact Except.noConfusion hok
  rw [heq] at hok
  injection hok with hok
  subst hok
  haveI : Std.Antisymm ((· : Int) ≤ ·) := ⟨fun h1 h2 => Int.le_antisymm h1 h2⟩
  have hmin := (List.min?_eq_some_iff (fun a => Int.le_refl a)
    (fun a b => min_choice a b) (fun a b c => le_min_iff)).mp hm
  exact ⟨hmin.1, fun x hx => hmin.2 x hx⟩

/-- Witness for `earliest_candidate_policy`: candidates 5, 3 (filesystem)
and 2, 9 (EXIF); the resolved creation time is 2. -/
theorem earliest_candidate_policy_witness :
    cached_image_info exifWorld [7] = none ∧
    exifCandidates [7] ⟨true, .ok
      [⟨some ⟨some 2, "v1"⟩, some .DateTimeOriginal, "d1"⟩,
       ⟨some ⟨none, "v2"⟩, some (.Other "Make"), "d2"⟩,
       ⟨some ⟨some 9, "v3"⟩, some .CreateDate, "d3"⟩]⟩ = .ok [2, 9] ∧
    (ImageInfo.from_path exifWorld [7]).result = .ok ⟨[7], 4, 3, 2⟩ ∧
    ((2 : Int) ∈ [5, 3, 2, 9] ∧ ∀ x ∈ ([5, 3, 2, 9] : List Int), (2 : Int) ≤ x) :=
  ⟨by decide, by decide, by decide,
   earliest_candidate_policy exifWorld [7] ⟨.ok 5000000000, .ok 3000000000⟩
     5000000000 5 3000000000 3 ⟨true, .ok
       [⟨some ⟨some 2, "v1"⟩, some .DateTimeOriginal, "d1"⟩,
        ⟨some ⟨none, "v2"⟩, some (.Other "Make"), "d2"⟩,
        ⟨some ⟨some 9, "v3"⟩, some .CreateDate, "d3"⟩]⟩ [2, 9] ⟨[7], 4, 3, 2⟩
     (by decide) rfl rfl (by decide) rfl (by decide) rfl (by decide) (by decide)⟩

/-- Claim C10: on a cache miss, a filesystem creation or modification time
before the UNIX epoch makes the resolution fail even though both
filesystem timestamp sources are present; and the system-time-to-local
conversion succeeds only for times at or after the epoch whose instant the
local conversion can represent. -/
theorem pre_epoch_failure (w : World) (path : Bytes) (md : FsMeta) (ct mt : Int)
    (hmiss : cached_image_info w path = none)
    (h1 : w.fsMetadata = .ok md) (h2 : md.created = .ok ct)
    (h3 : md.modified = .ok mt)
    (hpre : ct < 0 ∨ mt < 0) :
    (ImageInfo.from_path w path).result.isOk = false ∧
    ∀ (loc : Nat → Nat → Option Int) (t r : Int),
      get_local_naive_date_time_from_system_time loc t = .ok r →
      0 ≤ t ∧ loc ((t / 1000000000).toNat) ((t % 1000000000).toNat) = some r := by
  constructor
  · have hce : ∃ e, candidates w path = .error e := by
      rcases hpre with hct | hmt
      · refine ⟨.DurationSinceError, ?_⟩
        simp only [candidates, h1, h2,
          get_local_naive_date_time_from_system_time, if_pos hct]
      · cases hg : get_local_naive_date_time_from_system_time w.localize ct with
        | error e => exact ⟨e, by simp only [candidates, h1, h2, hg]⟩
        | ok c1 =>
          refine ⟨.DurationSinceError, ?_⟩
          simp only [candidates, h1, h2, hg, h3]
          simp only [get_local_naive_date_time_from_system_time, if_pos hmt]
    obtain ⟨e, hce⟩ := hce
    rw [from_path_of_candidates_error w path e hmiss hce]
    rfl
  · intro loc t r h
    unfold get_local_naive_date_time_from_system_time at h
    split at h
    · exact Except.noConfusion h
    · next hge =>
      refine ⟨by omega, ?_⟩
      split at h
      · next dt hdt =>
        injection h with h
        subst h
        exact hdt
      · exact Except.noConfusion h

/-- Witness for `pre_epoch_failure`: creation time 5 s before the epoch,
modification time 3 s after; the resolution fails. -/
theorem pre_epoch_failure_witness :
    preEpochWorld.fsMetadata = .ok ⟨.ok (-5000000000), .ok 3000000000⟩ ∧
    (ImageInfo.from_path preEpochWorld [7]).result.isOk = false :=
  ⟨rfl,
   (pre_epoch_failure preEpochWorld [7] ⟨.ok (-5000000000), .ok 3000000000⟩
     (-5000000000) 3000000000 (by decide) rfl rfl rfl (by decide)).1⟩


/-- Claim C4 (amended): when the whole-file EXIF parse fails (or the file
has no EXIF structure) but both filesystem timestamps are readable and
convertible, the EXIF failure itself is not fatal: provided the image
decode and the cache write also succeed, resolution succeeds and the
creation time is resolved from the two filesystem-time candidates only,
namely their minimum. -/
theorem exif_parse_failure_fallback (w : World) (path : Bytes) (md : FsMeta)
    (ct c1 mt c2 : Int) (fe : FileExif) (wd ht : Nat) (cp : String)
    (hmiss : cached_image_info w path = none)
    (h1 : w.fsMetadata = .ok md) (h2 : md.created = .ok ct)
    (h3 : get_local_naive_date_time_from_system_time w.localize ct = .ok c1)
    (h4 : md.modified = .ok mt)
    (h5 : get_local_naive_date_time_from_system_time w.localize mt = .ok c2)
    (h6 : w.exifSource = .ok fe)
    (h7 : fe.hasExif = false ∨ ∃ s, fe.parse = .error s)
    (h8 : w.decode = .ok (wd, ht))
    (h9 : cache_image_info w ⟨path, wd, ht, min c1 c2⟩ = .ok cp) :
    (ImageInfo.from_path w path).result = .ok ⟨path, wd, ht, min c1 c2⟩ := by
  have hex : exifCandidates path fe = .ok [] := by
    rcases h7 with h7 | ⟨s, h7⟩
    · simp [exifCandidates, h7]
    · cases hhe : fe.hasExif <;> simp [exifCandidates, h7, hhe]
  have hcand := candidates_ok w path md ct c1 mt c2 fe [] h1 h2 h3 h4 h5 h6 hex
  have hmin : ([c1, c2] : List Int).min? = some (min c1 c2) := by
    simp [List.min?, List.foldl]
  rw [from_path_fresh_ok w path [c1, c2] (min c1 c2) wd ht cp hmiss hcand hmin h8 h9]

/-- Counterexample to claim C4 as stated: in `corruptExifWorld` the EXIF
parse fails and both filesystem times are readable and convertible
(candidates 5 and 3 are gathered), yet resolution fails, because the image
decode fails. -/
theorem exif_parse_failure_fallback_counterexample :
    cached_image_info corruptExifWorld [7] = none ∧
    corruptExifWorld.exifSource = .ok ⟨true, .error "corrupt exif"⟩ ∧
    candidates corruptExifWorld [7] = .ok [5, 3] ∧
    (ImageInfo.from_path corruptExifWorld [7]).result = .error (.OtherError "decode failed") :=
  ⟨by decide, rfl, by decide, by decide⟩

/-- Witness for `exif_parse_failure_fallback`: with the decode restored,
the corrupt-EXIF file resolves to the minimum of the two filesystem
candidates. -/
theorem exif_parse_failure_fallback_witness :
    cached_image_info corruptExifOkWorld [7] = none ∧
    (ImageInfo.from_path corruptExifOkWorld [7]).result = .ok ⟨[7], 4, 3, min 5 3⟩ ∧
    min (5 : Int) 3 = 3 :=
  ⟨by decide,
   exif_parse_failure_fallback corruptExifOkWorld [7] ⟨.ok 5000000000, .ok 3000000000⟩
     5000000000 5 3000000000 3 ⟨true, .error "corrupt exif"⟩ 4 3 "ab.json"
     (by decide) rfl rfl (by decide) rfl (by decide) rfl (.inr ⟨"corrupt exif", rfl⟩)
     rfl (by decide),
   by decide⟩

/-- Claim C5: during EXIF candidate gathering on a cache miss, an entry
whose `get_value()` yields nothing fails that resolution with
`ExifValueError`, and a date-like tag whose value `as_time()` cannot parse
fails it with `ExifTimeError`; the error is the outcome of this one
resolution only (the pipeline item), and no cache entry is written. -/
theorem exif_value_and_time_errors (w : World) (path : Bytes) (md : FsMeta)
    (ct c1 mt c2 : Int) (fe : FileExif) (entries pre post : List ExifEntry)
    (e : ExifEntry) (l : List Int)
    (hmiss : cached_image_info w path = none)
    (h1 : w.fsMetadata = .ok md) (h2 : md.created = .ok ct)
    (h3 : get_local_naive_date_time_from_system_time w.localize ct = .ok c1)
    (h4 : md.modified = .ok mt)
    (h5 : get_local_naive_date_time_from_system_time w.localize mt = .ok c2)
    (h6 : w.exifSource = .ok fe) (h7 : fe.hasExif = true)
    (h8 : fe.parse = .ok entries) (h9 : entries = pre ++ e :: post)
    (h10 : collectExif path pre = .ok l) :
    (e.value = none →
      ImageInfo.from_path w path = ⟨.error (.ExifValueError path e.dbg), none⟩) ∧
    (∀ v t, e.value = some v → e.tag = some t → t.isDateTag = true →
      v.asTime = none →
      ImageInfo.from_path w path = ⟨.error (.ExifTimeError path t.toStr v.str), none⟩) := by
  have key : ∀ E, collectExif path (e :: post) = .error E →
      ImageInfo.from_path w path = ⟨.error E, none⟩ := by
    intro E hE
    have hce : collectExif path entries = .error E := by
      rw [h9, collectExif_append path pre (e :: post) l h10, hE]
      rfl
    have hex : exifCandidates path fe = .error E := by
      simp [exifCandidates, h7, h8, hce]
    have hcand : candidates w path = .error E := by
      simp only [candidates, h1, h2, h3, h4, h5, h6, hex]
    exact from_path_of_candidates_error w path E hmiss hcand
  constructor
  · intro hv
    exact key (.ExifValueError path e.dbg) (by simp [collectExif, hv])
  · intro v t hv htag hdt has
    exact key (.ExifTimeError path t.toStr v.str)
      (by simp [collectExif, hv, htag, hdt, has])

/-- Witness for `exif_value_and_time_errors`: a single EXIF entry with no
extractable value makes that resolution fail with `ExifValueError` and no
cache write (note the entry's tag is not even date-like — the value check
precedes the tag dispatch in the source loop). -/
theorem exif_value_and_time_errors_witness :
    cached_image_info exifValueFailWorld [7] = none ∧
    ImageInfo.from_path exifValueFailWorld [7] =
      ⟨.error (.ExifValueError [7] "entry0"), none⟩ :=
  ⟨by decide,
   (exif_value_and_time_errors exifValueFailWorld [7]
      ⟨.ok 5000000000, .ok 3000000000⟩ 5000000000 5 3000000000 3
      ⟨true, .ok [⟨none, some (.Other "Make"), "entry0"⟩]⟩
      [⟨none, some (.Other "Make"), "entry0"⟩] [] []
      ⟨none, some (.Other "Make"), "entry0"⟩ []
      (by decide) rfl rfl (by decide) rfl (by decide) rfl rfl rfl rfl rfl).1 rfl⟩


/-- Claim C9 (amended): every record the resolver produces has positive
width and height, provided the image decoder only reports positive
dimensions and every cache entry on disk decodes to a record with
positive dimensions. The resolver itself checks nothing: a record is
exactly the decoder's dimensions (fresh) or the stored entry (hit). -/
theorem dimensions_positive (w : World) (path : Bytes) (info : ImageInfo)
    (hdec : ∀ wd ht, w.decode = .ok (wd, ht) → 0 < wd ∧ 0 < ht)
    (hcache : ∀ k content i, w.cache k = some content → decodeInfo content = some i →
      0 < i.width ∧ 0 < i.height)
    (hok : (ImageInfo.from_path w path).result = .ok info) :
    0 < info.width ∧ 0 < info.height := by
  rcases from_path_spec w path with ⟨i, hhit, heq⟩ | ⟨hmiss, hrest⟩
  · rw [heq] at hok
    injection hok with hok
    subst hok
    obtain ⟨content, hc, hd⟩ := cached_image_info_some w path i hhit
    exact hcache _ content i hc hd
  · rcases hrest with ⟨e, hc, heq⟩ | ⟨cands, hc, hrest⟩
    · rw [heq] at hok; exact Except.noConfusion hok
    rcases hrest with ⟨hm, heq⟩ | ⟨m, hm, hrest⟩
    · rw [heq] at hok; exact Except.noConfusion hok
    rcases hrest with ⟨e, hd, heq⟩ | ⟨wd, ht, hd, hrest⟩
    · rw [heq] at hok; exact Except.noConfusion hok
    rcases hrest with ⟨e, hw, heq⟩ | ⟨cp, hw, heq⟩
    · rw [heq] at hok; exact Except.noConfusion hok
    · rw [heq] at hok
      injection hok with hok
      subst hok
      exact hdec wd ht hd

/-- Counterexample to claim C9 as stated: a cache entry with width 0
deserializes successfully and is returned as-is by the resolver. -/
theorem dimensions_positive_counterexample :
    (ImageInfo.from_path zeroWidthCacheWorld [7]).result = .ok ⟨[7], 0, 5, 11⟩ ∧
    (⟨[7], 0, 5, 11⟩ : ImageInfo).width = 0 :=
  ⟨by decide, rfl⟩

/-- Witness for `dimensions_positive`: a fresh resolution under a decoder
reporting 4 by 3 and an empty cache. -/
theorem dimensions_positive_witness :
    (ImageInfo.from_path freshOkWorld [7]).result = .ok ⟨[7], 4, 3, 3⟩ ∧
    (0 < (4 : Nat) ∧ 0 < (3 : Nat)) :=
  ⟨by decide,
   dimensions_positive freshOkWorld [7] ⟨[7], 4, 3, 3⟩
     (fun wd ht h => by
       injection h with h
       injection h with h1 h2
       omega)
     (fun k content i h _ => Option.noConfusion h)
     (by decide)⟩

/-- Claim C6: for every successfully resolved `ImageMetadata` record,
writing it to the Cache Store with put (the store update a successful
`cache_image_info` performs, reporting cache file `cp`) and then reading
it back with get (`cached_image_info`) for the same path yields `some`
record equal to the original in every field. -/
theorem cache_roundtrip (w : World) (info : ImageInfo) (cp : String)
    (h : cache_image_info w info = .ok cp) :
    cached_image_info
      { w with cache := fun k => if k = cp then some (encodeInfo info) else w.cache k }
      info.path = some info := by
  obtain ⟨hk, u, hparent⟩ := cache_image_info_ok w info cp h
  rw [cached_image_info_parent_ok
    { w with cache := fun k => if k = cp then some (encodeInfo info) else w.cache k }
    info.path u hparent]
  subst hk
  simp [decodeInfo_encodeInfo]

/-- Witness for `cache_roundtrip` at a concrete world and record. -/
theorem cache_roundtrip_witness :
    cache_image_info roundtripWorld ⟨[7, 8], 4, 3, 11⟩ = .ok "ab.json" ∧
    cached_image_info
      { roundtripWorld with
        cache := fun k =>
          if k = "ab.json" then some (encodeInfo ⟨[7, 8], 4, 3, 11⟩)
          else roundtripWorld.cache k }
      [7, 8] = some ⟨[7, 8], 4, 3, 11⟩ :=
  ⟨by decide, cache_roundtrip roundtripWorld ⟨[7, 8], 4, 3, 11⟩ "ab.json" (by decide)⟩

/-- Claim C3: a failed resolution (with `NoCreationDateError` on an empty
candidate list, or with any other resolution-level error) writes no cache
entry: the cache write happens only after all other steps of a fresh
computation succeed. -/
theorem no_cache_write_on_error (w : World) (path : Bytes) (e : Error)
    (h : (ImageInfo.from_path w path).result = .error e) :
    (ImageInfo.from_path w path).cacheWritten = none := by
  rcases from_path_spec w path with
    ⟨info, _, heq⟩ |
    ⟨_, ⟨e2, _, heq⟩ |
       ⟨cands, _, ⟨_, heq⟩ |
         ⟨m, _, ⟨e2, _, heq⟩ |
           ⟨wd, ht, _, ⟨e2, _, heq⟩ | ⟨cp, _, heq⟩⟩⟩⟩⟩
  · rw [heq] at h; exact Except.noConfusion h
  · rw [heq]
  · rw [heq]
  · rw [heq]
  · rw [heq]
  · rw [heq] at h; exact Except.noConfusion h

/-- Witness for `no_cache_write_on_error`: a world with no readable
filesystem metadata fails and writes nothing. -/
theorem no_cache_write_on_error_witness :
    (ImageInfo.from_path statFailWorld [7]).result = .error (.OtherError "stat failed") ∧
    (ImageInfo.from_path statFailWorld [7]).cacheWritten = none :=
  ⟨by decide, no_cache_write_on_error statFailWorld [7] (.OtherError "stat failed") (by decide)⟩

/-- Claim C2: when a cache entry exists and deserializes successfully,
`from_path` returns the cached record unchanged and writes nothing; and
the outcome is identical in any world that agrees only on the cache
directory, the hash, and the cache contents — no filesystem stat, no EXIF
read, no image decode influences a cache hit, even if the underlying file
has changed. -/
theorem cache_hit_short_circuit (w w2 : World) (path : Bytes) (info : ImageInfo)
    (hhit : cached_image_info w path = some info)
    (hc : w2.cache = w.cache) (hp : w2.cacheParent = w.cacheParent)
    (hh : w2.hash = w.hash) :
    (ImageInfo.from_path w path).result = .ok info ∧
    (ImageInfo.from_path w path).cacheWritten = none ∧
    ImageInfo.from_path w2 path = ImageInfo.from_path w path := by
  have hci : cached_image_info w2 path = cached_image_info w path := by
    unfold cached_image_info cache_path
    rw [hc, hp, hh]
  have h1 : ImageInfo.from_path w path = ⟨.ok info, none⟩ := by
    simp only [ImageInfo.from_path, hhit]
  have h2 : ImageInfo.from_path w2 path = ⟨.ok info, none⟩ := by
    simp only [ImageInfo.from_path, hci, hhit]
  rw [h1, h2]
  exact ⟨rfl, rfl, rfl⟩

/-- Witness for `cache_hit_short_circuit`: the second world has entirely
different (even failing) filesystem, EXIF and decode outcomes, yet the hit
returns the same cached record. -/
theorem cache_hit_short_circuit_witness :
    cached_image_info hitWorld [7, 8] = some ⟨[7, 8], 4, 3, 11⟩ ∧
    (ImageInfo.from_path hitWorld [7, 8]).result = .ok ⟨[7, 8], 4, 3, 11⟩ ∧
    (ImageInfo.from_path hitWorld [7, 8]).cacheWritten = none ∧
    ImageInfo.from_path changedFileWorld [7, 8] = ImageInfo.from_path hitWorld [7, 8] :=
  ⟨by decide,
   cache_hit_short_circuit hitWorld changedFileWorld [7, 8] ⟨[7, 8], 4, 3, 11⟩
      (by decide) rfl rfl rfl⟩


end MakeXnviewSlideshow
